import Mathlib

set_option linter.unusedVariables false

/-!
Shallow embedding of the step-interpretation and execution engine of
`src/client.py` (class `PlaywrightMCPTestRunner`): the action executor
`execute_playwright_action`, the per-step dispatch loop of
`parse_and_execute_ai_commands`, the advisory wrapper `ask_ai_to_execute`,
the per-case driver `run_test_case` and the suite driver `run_all_tests`.

Browser effects are abstracted by an oracle (`Browser`): a function from
the history of page-method calls made so far and the current call to the
outcome of that call (`Except.ok payload` when the underlying coroutine
returns normally, `Except.error e` when it raises, `e` standing for
`str(exception)`).  The executor threads the call history, which doubles
as the observable trace of attempted page actions.  The advisory AI
chat-completion call is likewise abstracted as an `Except String String`
outcome.  Wall-clock fields (`duration`, `start_time`, `end_time`) are
real time and are omitted from the embedding.
-/

/-- Keyword-argument record: the union of all `**kwargs` keys that
`execute_playwright_action` reads (`url`, `selector`, `text`, `timeout`,
`path`, `full_page`).  A key absent from the Python call site is `none`. -/
structure Kwargs where
  url : Option String := none
  selector : Option String := none
  text : Option String := none
  timeout : Option Nat := none
  path : Option String := none
  full_page : Option Bool := none
deriving Repr, DecidableEq

/-- One invocation of a Playwright page method, as recorded in the call
trace: the dispatched action name and the parameters it was invoked with
(defaults already resolved by the executor). -/
structure Call where
  action : String
  kwargs : Kwargs
deriving Repr, DecidableEq

/-- Oracle for the live browser session: given the call history and the
current call, the outcome of the underlying page method (`ok` carrying
the returned string for `get_title`/`get_text`, an irrelevant payload for
the other actions; `error e` models a raised exception with `e =
str(exception)`).  Dependence on the history lets identical calls behave
differently as the page state evolves. -/
def Browser : Type := List Call → Call → Except String String

/-- Mirror of the result dict of `execute_playwright_action`:
`{"success": ..., "message": ..., "error": ..., "text": ..., "title": ...}`,
absent keys being `none`. -/
structure ActionResult where
  success : Bool
  message : Option String := none
  error : Option String := none
  text : Option String := none
  title : Option String := none
deriving Repr, DecidableEq

/-- Python rendering of a possibly-missing string inside an f-string
(`None` prints as `"None"`). -/
def pyStr : Option String → String
  | none => "None"
  | some s => s

/-- Perform one page-method call through the oracle: append the call to
the history and translate a raised exception into
`{success: false, error: str(e)}` — the `except Exception` clause of
`execute_playwright_action`. -/
def doCall (br : Browser) (hist : List Call) (c : Call)
    (onOk : String → ActionResult) : ActionResult × List Call :=
  let r := match br hist c with
    | Except.ok s => onOk s
    | Except.error e => { success := false, error := some e }
  (r, hist ++ [c])

/-- Shallow embedding of `PlaywrightMCPTestRunner.execute_playwright_action`
(src/client.py lines 126-192).  `page = none` models `self.page is None`.
The dispatch chain, the parameter defaults and the produced messages
follow the source line by line. -/
def execute_playwright_action (page : Option Browser) (hist : List Call)
    (action : String) (kwargs : Kwargs) : ActionResult × List Call :=
  match page with
  | none => ({ success := false, error := some "页面未初始化" }, hist)
  | some br =>
    if action = "goto" then
      doCall br hist { action := "goto", kwargs := { url := kwargs.url } }
        (fun _ => { success := true, message := some ("已导航到 " ++ pyStr kwargs.url) })
    else if action = "click" then
      doCall br hist { action := "click", kwargs := { selector := kwargs.selector } }
        (fun _ => { success := true, message := some ("已点击 " ++ pyStr kwargs.selector) })
    else if action = "fill" then
      doCall br hist { action := "fill", kwargs := { selector := kwargs.selector, text := kwargs.text } }
        (fun _ => { success := true, message := some ("已在 " ++ pyStr kwargs.selector ++ " 中输入 " ++ pyStr kwargs.text) })
    else if action = "type" then
      doCall br hist { action := "type", kwargs := { selector := kwargs.selector, text := kwargs.text } }
        (fun _ => { success := true, message := some ("已在 " ++ pyStr kwargs.selector ++ " 中输入 " ++ pyStr kwargs.text) })
    else if action = "wait" then
      let timeout := kwargs.timeout.getD 3000
      doCall br hist { action := "wait", kwargs := { timeout := some timeout } }
        (fun _ => { success := true, message := some ("等待 " ++ toString timeout ++ "ms") })
    else if action = "wait_for_selector" then
      let timeout := kwargs.timeout.getD 30000
      doCall br hist { action := "wait_for_selector", kwargs := { selector := kwargs.selector, timeout := some timeout } }
        (fun _ => { success := true, message := some ("等待元素 " ++ pyStr kwargs.selector ++ " 出现") })
    else if action = "screenshot" then
      doCall br hist { action := "screenshot", kwargs := { path := kwargs.path, full_page := some (kwargs.full_page.getD false) } }
        (fun _ => { success := true, message := some ("已保存截图到 " ++ pyStr kwargs.path) })
    else if action = "get_text" then
      let selector := kwargs.selector.getD "body"
      doCall br hist { action := "get_text", kwargs := { selector := some selector } }
        (fun t => { success := true, text := some t, message := some "获取文本成功" })
    else if action = "get_title" then
      doCall br hist { action := "get_title", kwargs := {} }
        (fun t => { success := true, title := some t, message := some ("页面标题: " ++ t) })
    else
      ({ success := false, error := some ("未知操作: " ++ action) }, hist)

/-- The action names the dispatch chain of `execute_playwright_action`
recognizes; any other name falls to the `未知操作` (unknown action) branch. -/
def knownAction (a : String) : Bool :=
  a = "goto" || a = "click" || a = "fill" || a = "type" || a = "wait" ||
  a = "wait_for_selector" || a = "screenshot" || a = "get_text" || a = "get_title"

/-- A browser oracle whose every page method returns normally (with an
empty payload); used to instantiate concrete runs. -/
def brOk : Browser := fun _ _ => Except.ok ""

/-- Whether the first character list is a prefix of the second. -/
def listIsPre : List Char → List Char → Bool
  | [], _ => true
  | _ :: _, [] => false
  | a :: as, b :: bs => a == b && listIsPre as bs

/-- Whether the first character list occurs contiguously inside the second. -/
def listHasInfix (sub : List Char) : List Char → Bool
  | [] => sub.isEmpty
  | b :: bs => listIsPre sub (b :: bs) || listHasInfix sub bs

/-- Python's substring operator `sub in s` on strings. -/
def pyIn (sub s : String) : Bool := listHasInfix sub.data s.data

/-- Python regex class `\s` (Unicode whitespace) on `str` patterns:
ASCII space and `\t\n\v\f\r`, the separators U+001C-U+001F, NEL, NBSP,
Ogham space, the U+2000 range, line/paragraph separators, narrow NBSP,
medium mathematical space and the ideographic space. -/
def pySpace (c : Char) : Bool :=
  c = ' ' || (9 ≤ c.val && c.val ≤ 13) || (0x1c ≤ c.val && c.val ≤ 0x1f) ||
  c.val = 0x85 || c.val = 0xa0 ||
  c.val = 0x1680 || (0x2000 ≤ c.val && c.val ≤ 0x200a) ||
  c.val = 0x2028 || c.val = 0x2029 || c.val = 0x202f || c.val = 0x205f || c.val = 0x3000

/-- Complement of the character class `[^\s\)，。]` of the URL regex in
`parse_and_execute_ai_commands` (line 293): the characters a URL match
must stop at — whitespace, ASCII `)`, fullwidth comma `，` and
ideographic full stop `。`. -/
def urlStop (c : Char) : Bool := pySpace c || c = ')' || c = '，' || c = '。'

/-- Match the regex prefix `https?://` at the head of the character list,
returning the matched scheme characters and the remainder (the optional
`s` is tried greedily first, matching the regex engine's backtracking). -/
def afterScheme : List Char → Option (List Char × List Char)
  | 'h' :: 't' :: 't' :: 'p' :: 's' :: ':' :: '/' :: '/' :: r => some ("https://".data, r)
  | 'h' :: 't' :: 't' :: 'p' :: ':' :: '/' :: '/' :: r => some ("http://".data, r)
  | _ => none

/-- The scan of `re.search(r'https?://[^\s\)，。]+', step)`: left to
right, the first position where the scheme matches and is followed by a
nonempty (greedy, maximal) run of non-stop characters yields the match. -/
def findUrlFrom : List Char → Option (List Char)
  | [] => none
  | c :: cs =>
    match afterScheme (c :: cs) with
    | some (sch, r) =>
      let run := r.takeWhile (fun d => !urlStop d)
      if run.isEmpty then findUrlFrom cs else some (sch ++ run)
    | none => findUrlFrom cs

/-- URL extraction of the navigate rule (line 293). -/
def findUrl (s : String) : Option String := (findUrlFrom s.data).map String.mk

/-- The quote characters of the regex `['\"]([^'\"]+)['\"]` (line 305):
ASCII single and double quote. -/
def isQuote (c : Char) : Bool := c = Char.ofNat 39 || c = Char.ofNat 34

/-- The scan of `re.search` for `['\"]([^'\"]+)['\"]`: first position
with an opening quote followed by a nonempty run of non-quote characters
and then a closing quote (either kind); returns the captured group. -/
def findQuotedFrom : List Char → Option (List Char)
  | [] => none
  | c :: cs =>
    if isQuote c then
      let run := cs.takeWhile (fun d => !isQuote d)
      if run.isEmpty then findQuotedFrom cs
      else if (cs.drop run.length).isEmpty then findQuotedFrom cs
      else some run
    else findQuotedFrom cs

/-- Search-term extraction of the search/input rule (line 305). -/
def findQuoted (s : String) : Option String := (findQuotedFrom s.data).map String.mk

/-- Mirror of the per-step result dict of `parse_and_execute_ai_commands`
(lines 282-287): `{"step": i+1, "description": step, "success": ...,
"error": ..., "message": ...}`. -/
structure StepResult where
  step : Nat
  description : String
  success : Bool
  error : Option String := none
  message : Option String := none
deriving Repr, DecidableEq

/-- One iteration of the step loop of `parse_and_execute_ai_commands`
(lines 281-380): the keyword dispatch for the step with 0-based index
`i`, threading the running `last_error` value `le` and the page-call
history.  Every branch follows the source: a matched extraction executes
one action and copies its `success`/`message` (and `error` on failure);
a keyword match whose extraction fails leaves the initial
`success = False` untouched; the verify rule validates the title; the
default branch executes a discarded 1000ms wait and reports success. -/
def exec_step (page : Option Browser) (hist : List Call) (le : Option String)
    (i : Nat) (step : String) : StepResult × Option String × List Call :=
  let base : StepResult := { step := i + 1, description := step, success := false, error := none }
  if pyIn "导航" step || pyIn "打开" step || pyIn "访问" step then
    match findUrl step with
    | some url =>
      let r := execute_playwright_action page hist "goto" { url := some url }
      ({ base with success := r.1.success, message := r.1.message, error := if r.1.success then none else r.1.error },
       (if r.1.success then le else r.1.error), r.2)
    | none => (base, le, hist)
  else if pyIn "搜索" step && pyIn "输入" step then
    match findQuoted step with
    | some keyword =>
      let r := execute_playwright_action page hist "fill" { selector := some "input[name=\x27wd\x27], input#kw", text := some keyword }
      ({ base with success := r.1.success, message := r.1.message, error := if r.1.success then none else r.1.error },
       (if r.1.success then le else r.1.error), r.2)
    | none => (base, le, hist)
  else if pyIn "点击" step then
    let r :=
      if pyIn "搜索" step || pyIn "按钮" step then
        execute_playwright_action page hist "click" { selector := some "input[type=\x27submit\x27], button, #su" }
      else
        execute_playwright_action page hist "click" { selector := some "button, a" }
    ({ base with success := r.1.success, message := r.1.message, error := if r.1.success then none else r.1.error },
     (if r.1.success then le else r.1.error), r.2)
  else if pyIn "验证" step || pyIn "检查" step then
    if pyIn "标题" step then
      let r := execute_playwright_action page hist "get_title" {}
      if r.1.success then
        let title := r.1.title.getD ""
        if pyIn "百度" title || pyIn "playwright" title.toLower then
          ({ base with success := true, message := r.1.message }, le, r.2)
        else
          ({ base with success := false, message := r.1.message, error := some ("标题验证失败: " ++ title) }, le, r.2)
      else
        ({ base with success := false, message := r.1.message }, le, r.2)
    else
      let r := execute_playwright_action page hist "wait" { timeout := some 2000 }
      ({ base with success := true }, le, r.2)
  else if pyIn "等待" step then
    let r := execute_playwright_action page hist "wait" { timeout := some 3000 }
    ({ base with success := r.1.success, message := r.1.message }, le, r.2)
  else
    let r := execute_playwright_action page hist "wait" { timeout := some 1000 }
    ({ base with success := true, message := some "步骤执行完成" }, le, r.2)

/-- State carried by the step loop: the accumulated `executed_steps`
list, the running `last_error`, and the page-call history. -/
structure LoopOut where
  executed : List StepResult
  last_error : Option String
  hist : List Call
deriving Repr, DecidableEq

/-- The `for i, step in enumerate(steps)` loop of
`parse_and_execute_ai_commands`: execute the declared steps in order,
appending each `StepResult`, and `break` right after the first step whose
result is a failure (fail-fast, lines 371-373). -/
def run_steps (page : Option Browser) (hist : List Call) (le : Option String)
    (i : Nat) : List String → LoopOut
  | [] => { executed := [], last_error := le, hist := hist }
  | s :: rest =>
    let t := exec_step page hist le i s
    if t.1.success then
      let out := run_steps page t.2.2 t.2.1 (i + 1) rest
      { out with executed := t.1 :: out.executed }
    else
      { executed := [t.1], last_error := t.2.1, hist := t.2.2 }

/-- Mirror of the result dict of `parse_and_execute_ai_commands` /
`ask_ai_to_execute`: `{"success": ..., "steps": ..., "error": ...}`.  The
advisory-failure dict carries no `"steps"` key; since its only reader
uses `.get("steps", [])`, it is modelled as `[]`. -/
structure ExecResult where
  success : Bool
  steps : List StepResult
  error : Option String
deriving Repr, DecidableEq

/-- `parse_and_execute_ai_commands` (lines 258-391).  The `ai_response`
argument is never consulted by the deterministic dispatch, so it is not a
parameter: the function is the post-advisory execution path.  The overall
`success` is `all(step["success"] for step in executed_steps)` and
`error` is the final `last_error` when some step failed (lines 382-389). -/
def parse_and_execute_ai_commands (page : Option Browser) (hist : List Call)
    (steps : List String) : ExecResult × List Call :=
  let out := run_steps page hist none 0 steps
  let all_success := out.executed.all (fun sr => sr.success)
  ({ success := all_success, steps := out.executed, error := if all_success then none else out.last_error }, out.hist)

/-- `ask_ai_to_execute` (lines 194-256): the advisory chat-completion
call is abstracted by its outcome `advisory` (`ok` = the response text,
`error e` = a raised exception with `e = str(exception)`).  On failure
the exception is captured and the case result is
`{"success": False, "error": "AI 调用失败: <detail>"}`, no step being
interpreted or executed; on success the deterministic dispatch runs. -/
def ask_ai_to_execute (advisory : Except String String) (page : Option Browser)
    (hist : List Call) (steps : List String) : ExecResult × List Call :=
  match advisory with
  | Except.ok _ => parse_and_execute_ai_commands page hist steps
  | Except.error e => ({ success := false, steps := [], error := some ("AI 调用失败: " ++ e) }, hist)

/-- Test-case record, with the `test_case.get` defaults of
`run_test_case` already applied. -/
structure TestCase where
  id : String := "UNKNOWN"
  name : String := "未命名测试"
  description : String := ""
  steps : List String := []
deriving Repr, DecidableEq

/-- Mirror of the per-case result dict built by `run_test_case` (lines
433-444); the wall-clock fields (`duration`, `start_time`, `end_time`)
are omitted as real time. -/
structure TestCaseResult where
  id : String
  name : String
  description : String
  success : Bool
  error : Option String
  screenshot : Option String
  steps : List StepResult
deriving Repr, DecidableEq

/-- `run_test_case` (lines 393-452): run the advisory call plus the step
loop; iff the execution result is a failure, attempt one failure
screenshot — its `ActionResult` is discarded — and attach the path of the
screenshot file relative to the reports directory.  `ts` stands for
`get_timestamp()`.  The `except` clause around the screenshot cannot fire
in the embedding because the executor is total; on its success path the
source always reaches the `relative_to` reassignment. -/
def run_test_case (advisory : Except String String) (page : Option Browser)
    (hist : List Call) (tc : TestCase) (ts : String) : TestCaseResult × List Call :=
  let er := ask_ai_to_execute advisory page hist tc.steps
  let screenshot_file := tc.id ++ "_" ++ ts ++ ".png"
  if er.1.success then
    ({ id := tc.id, name := tc.name, description := tc.description, success := er.1.success,
       error := er.1.error, screenshot := none, steps := er.1.steps }, er.2)
  else
    let r := execute_playwright_action page er.2 "screenshot" { path := some ("reports/screenshots/" ++ screenshot_file), full_page := some true }
    ({ id := tc.id, name := tc.name, description := tc.description, success := er.1.success,
       error := er.1.error, screenshot := some ("screenshots/" ++ screenshot_file), steps := er.1.steps }, r.2)

/-- The case loop of `run_all_tests` (lines 454-473): run the cases
strictly in input order — case number `i` uses advisory outcome `adv i`
and timestamp `ts i` — appending one `TestCaseResult` per case; a failed
case never stops the loop.  The inter-case `asyncio.sleep(2)` pacing and
the final report generation have no effect on the result list. -/
def run_all_tests_from (adv : Nat → Except String String) (ts : Nat → String)
    (page : Option Browser) (hist : List Call) (i : Nat) : List TestCase → List TestCaseResult × List Call
  | [] => ([], hist)
  | tc :: rest =>
    let r := run_test_case (adv i) page hist tc (ts i)
    let out := run_all_tests_from adv ts page r.2 (i + 1) rest
    (r.1 :: out.1, out.2)

/-- `run_all_tests`, from a fresh browser page and an empty call history. -/
def run_all_tests (adv : Nat → Except String String) (ts : Nat → String)
    (page : Option Browser) (tcs : List TestCase) : List TestCaseResult × List Call :=
  run_all_tests_from adv ts page [] 0 tcs

/-- Modelled from the spec: rule 1 of the StepInterpreter describes the
URL as the "first URL-shaped substring (scheme `http`/`https` followed by
non-whitespace, non-bracket, non-comma run)".  This is the stop set those
words describe, with brackets read as the ASCII parentheses and square
brackets and commas as ASCII `,` plus fullwidth `，`; only this stop set
differs from the code's `urlStop`. -/
def specUrlStop (c : Char) : Bool :=
  pySpace c || c = '(' || c = ')' || c = '[' || c = ']' || c = ',' || c = '，'

/-- Modelled from the spec: the first-match scan of rule 1 with the
spec's stop set `specUrlStop`. -/
def specFindUrlFrom : List Char → Option (List Char)
  | [] => none
  | c :: cs =>
    match afterScheme (c :: cs) with
    | some (sch, r) =>
      let run := r.takeWhile (fun d => !specUrlStop d)
      if run.isEmpty then specFindUrlFrom cs else some (sch ++ run)
    | none => specFindUrlFrom cs

/-- Modelled from the spec: URL extraction as the spec's words describe it. -/
def specUrlFirst (s : String) : Option String := (specFindUrlFrom s.data).map String.mk

lemma doCall_snd (br : Browser) (hist : List Call) (c : Call) (f : String → ActionResult) :
    (doCall br hist c f).2 = hist ++ [c] := rfl

lemma doCall_error_iff (br : Browser) (hist : List Call) (c : Call) (f : String → ActionResult)
    (h : ∀ s, (f s).success = true ∧ (f s).error = none) :
    ((doCall br hist c f).1.success = false ↔ (doCall br hist c f).1.error.isSome = true) := by
  unfold doCall
  cases hbr : br hist c with
  | ok s => simp [(h s).1, (h s).2]
  | error e => simp

/-- C4: for every action request and every session state, the action
executor always returns an `ActionResult` (it is a total function of the
embedding): when the page is not initialized it returns `success: false`
with the session-not-initialized error `页面未初始化` for every action
kind; a result is a failure exactly when an error message is attached
(every underlying fault is translated to `{success: false, error: msg}`);
and an unknown action kind yields `{success: false, error: 未知操作}`. -/
theorem C4_executor_error_contract (action : String) (kwargs : Kwargs) (hist : List Call) :
    (execute_playwright_action none hist action kwargs
        = ({ success := false, message := none, error := some "页面未初始化", text := none, title := none }, hist))
    ∧ (∀ br : Browser, ((execute_playwright_action (some br) hist action kwargs).1.success = false
        ↔ (execute_playwright_action (some br) hist action kwargs).1.error.isSome = true))
    ∧ (∀ br : Browser, knownAction action = false →
        execute_playwright_action (some br) hist action kwargs
          = ({ success := false, message := none, error := some ("未知操作: " ++ action), text := none, title := none }, hist)) := by
  refine ⟨rfl, fun br => ?_, fun br h => ?_⟩
  · unfold execute_playwright_action
    split_ifs <;>
      first
        | (apply doCall_error_iff; intro s; exact ⟨rfl, rfl⟩)
        | simp
  · unfold knownAction at h
    simp only [Bool.or_eq_false_iff, decide_eq_false_iff_not] at h
    obtain ⟨⟨⟨⟨⟨⟨⟨⟨h1, h2⟩, h3⟩, h4⟩, h5⟩, h6⟩, h7⟩, h8⟩, h9⟩ := h
    unfold execute_playwright_action
    simp [h1, h2, h3, h4, h5, h6, h7, h8, h9]

/-- Witness for C4 at the unknown action kind `frobnicate`. -/
theorem C4_witness :
    knownAction "frobnicate" = false
    ∧ execute_playwright_action (some brOk) [] "frobnicate" {}
        = ({ success := false, message := none, error := some ("未知操作: " ++ "frobnicate"), text := none, title := none }, []) :=
  ⟨by decide, (C4_executor_error_contract "frobnicate" {} []).2.2 brOk (by decide)⟩

lemma cons_dropLast (a : StepResult) (l : List StepResult) (h : l ≠ []) :
    (a :: l).dropLast = a :: l.dropLast := by
  cases l with
  | nil => exact absurd rfl h
  | cons b t => rfl

lemma cons_getLastQ (a : StepResult) (l : List StepResult) (h : l ≠ []) :
    (a :: l).getLast? = l.getLast? := by
  cases l with
  | nil => exact absurd rfl h
  | cons b t => simp [List.getLast?]

lemma run_steps_length_le (steps : List String) :
    ∀ page hist le i, (run_steps page hist le i steps).executed.length ≤ steps.length := by
  induction steps with
  | nil => intro page hist le i; simp [run_steps]
  | cons s rest ih =>
    intro page hist le i
    unfold run_steps
    by_cases h : (exec_step page hist le i s).1.success
    · simp only [h, if_true]
      simpa using ih page (exec_step page hist le i s).2.2 (exec_step page hist le i s).2.1 (i + 1)
    · simp [h]

lemma run_steps_shape (steps : List String) :
    ∀ page hist le i,
      ((run_steps page hist le i steps).executed.all (fun sr => sr.success) = true
         ∧ (run_steps page hist le i steps).executed.length = steps.length)
      ∨ ((run_steps page hist le i steps).executed.all (fun sr => sr.success) = false
         ∧ 0 < (run_steps page hist le i steps).executed.length
         ∧ (run_steps page hist le i steps).executed.dropLast.all (fun sr => sr.success) = true
         ∧ ((run_steps page hist le i steps).executed.getLast?).map (fun sr => sr.success) = some false) := by
  induction steps with
  | nil => intro page hist le i; left; simp [run_steps]
  | cons s rest ih =>
    intro page hist le i
    unfold run_steps
    by_cases h : (exec_step page hist le i s).1.success
    · simp only [h, if_true]
      rcases ih page (exec_step page hist le i s).2.2 (exec_step page hist le i s).2.1 (i + 1) with
        ⟨hall, hlen⟩ | ⟨hall, hpos, hdrop, hlast⟩
      · left
        constructor
        · simp [List.all_cons, h, hall]
        · simp [hlen]
      · right
        have hne : (run_steps page (exec_step page hist le i s).2.2 (exec_step page hist le i s).2.1 (i + 1) rest).executed ≠ [] := by
          intro hnil
          rw [hnil] at hpos
          simp at hpos
        refine ⟨?_, ?_, ?_, ?_⟩
        · simp [List.all_cons, hall]
        · simp
        · rw [cons_dropLast _ _ hne]
          simp [List.all_cons, h, hdrop]
        · rw [cons_getLastQ _ _ hne]
          exact hlast
    · simp only [Bool.not_eq_true] at h
      right
      simp [h]

/-- C1 (amended): for every test-case run whose advisory call succeeds,
the produced `StepResult` sequence is an in-order prefix of the declared
steps: its length is at most `len(steps)`; when all produced steps
succeeded it equals `len(steps)`; and when some step failed, every
produced result but the last succeeded and the last one failed, so the
length is the 0-based index of the first failing step plus one — which
equals `len(steps)` when the failing step is the last declared one, so
completeness of the sequence is not equivalent to success of the case. -/
theorem C1_produced_steps_prefix (page : Option Browser) (hist : List Call) (steps : List String) :
    ((parse_and_execute_ai_commands page hist steps).1.steps.length ≤ steps.length)
    ∧ (((parse_and_execute_ai_commands page hist steps).1.steps.all (fun sr => sr.success) = true
          ∧ (parse_and_execute_ai_commands page hist steps).1.steps.length = steps.length)
       ∨ ((parse_and_execute_ai_commands page hist steps).1.steps.all (fun sr => sr.success) = false
          ∧ 0 < (parse_and_execute_ai_commands page hist steps).1.steps.length
          ∧ (parse_and_execute_ai_commands page hist steps).1.steps.dropLast.all (fun sr => sr.success) = true
          ∧ ((parse_and_execute_ai_commands page hist steps).1.steps.getLast?).map (fun sr => sr.success) = some false)) := by
  constructor
  · exact run_steps_length_le steps page hist none 0
  · exact run_steps_shape steps page hist none 0

/-- Counterexample to C1 as stated: for the 1-step case `打开页面`
(navigate keyword, no URL) the step fails, yet the produced sequence has
length 1 = `len(steps)` — so "length equals `len(steps)` iff all steps
succeeded" is false, and so is "strictly shorter iff the case failed". -/
theorem C1_counterexample :
    ¬ (((parse_and_execute_ai_commands (some brOk) [] ["打开页面"]).1.steps.length
          = (["打开页面"] : List String).length)
        ↔ (parse_and_execute_ai_commands (some brOk) [] ["打开页面"]).1.steps.all (fun sr => sr.success) = true) := by
  decide

/-- Counterexample to C2: the step text `打开页面` contains the
open/navigate keyword and no URL-shaped substring, yet it is NOT marked
successful and NO `wait`-1000 action is executed — the claimed fall
through to the default rule does not happen. -/
theorem C2_counterexample :
    ¬ ((exec_step (some brOk) [] none 0 "打开页面").1.success = true
        ∧ (exec_step (some brOk) [] none 0 "打开页面").2.2
            = [{ action := "wait", kwargs := { timeout := some 1000 } }]) := by
  decide

/-- C2 (amended): when a navigate/open/visit keyword matches but no
URL-shaped substring is found, or when the search and input keywords
match (with no navigate keyword taking precedence) but no quoted
substring is found, interpretation does NOT fall through to the default
rule: no action is executed at all, and the step keeps its initial
failure marking (`success = false`, `error = None`), which triggers
fail-fast for the case. -/
theorem C2_unmatched_extraction_fails (page : Option Browser) (hist : List Call)
    (le : Option String) (i : Nat) (s : String)
    (h : ((pyIn "导航" s || pyIn "打开" s || pyIn "访问" s) = true ∧ findUrl s = none)
       ∨ ((pyIn "导航" s || pyIn "打开" s || pyIn "访问" s) = false
          ∧ (pyIn "搜索" s && pyIn "输入" s) = true ∧ findQuoted s = none)) :
    exec_step page hist le i s
      = ({ step := i + 1, description := s, success := false, error := none, message := none }, le, hist) := by
  rcases h with ⟨hk, hu⟩ | ⟨hk, hs, hq⟩
  · unfold exec_step
    rw [hk, hu]
    simp
  · unfold exec_step
    rw [hk, hs, hq]
    simp

/-- Witness for C2 at the no-URL navigate step `打开页面` and the
no-quote search step `搜索框输入关键词`. -/
theorem C2_witness :
    (exec_step (some brOk) [] none 0 "打开页面"
       = ({ step := 1, description := "打开页面", success := false, error := none, message := none }, none, []))
    ∧ (exec_step (some brOk) [] none 0 "搜索框输入关键词"
       = ({ step := 1, description := "搜索框输入关键词", success := false, error := none, message := none }, none, [])) :=
  ⟨C2_unmatched_extraction_fails (some brOk) [] none 0 "打开页面" (Or.inl ⟨by decide, by decide⟩),
   C2_unmatched_extraction_fails (some brOk) [] none 0 "搜索框输入关键词" (Or.inr ⟨by decide, by decide, by decide⟩)⟩

/-- C3: for every test-case run, `TestCaseResult.success` is true iff
the advisory AI call succeeded, every produced `StepResult.success` is
true, and the produced step sequence is complete (one result per
declared step). -/
theorem C3_case_success_iff (advisory : Except String String) (page : Option Browser)
    (hist : List Call) (tc : TestCase) (ts : String) :
    ((run_test_case advisory page hist tc ts).1.success = true
      ↔ ((∃ r, advisory = Except.ok r)
         ∧ (run_test_case advisory page hist tc ts).1.steps.all (fun sr => sr.success) = true
         ∧ (run_test_case advisory page hist tc ts).1.steps.length = tc.steps.length)) := by
  cases advisory with
  | error e =>
    have hrun : (run_test_case (Except.error e) page hist tc ts).1.success = false := by
      unfold run_test_case ask_ai_to_execute
      simp
    rw [hrun]
    constructor
    · intro hfalse; exact absurd hfalse (by simp)
    · rintro ⟨⟨r, hr⟩, -, -⟩; exact absurd hr (by simp)
  | ok r =>
    have hshape := run_steps_shape tc.steps page hist none 0
    unfold run_test_case ask_ai_to_execute parse_and_execute_ai_commands
    by_cases hall : (run_steps page hist none 0 tc.steps).executed.all (fun sr => sr.success) = true
    · rcases hshape with ⟨-, hlen⟩ | ⟨hfalse, -⟩
      · simp [hall, hlen]
      · rw [hall] at hfalse; exact absurd hfalse (by simp)
    · have hfalse : (run_steps page hist none 0 tc.steps).executed.all (fun sr => sr.success) = false := by
        simpa using hall
      simp [hfalse]

/-- C9: a step text matching none of the keyword rules (navigate/open/
visit, search+input, click, verify/check, wait) takes the default branch:
a discarded `wait` action with timeout 1000ms is executed and the step is
marked successful with the generic `步骤执行完成` ("step executed")
message — a no-op fallback, never a failure, whatever the browser does. -/
theorem C9_default_rule_noop_success (br : Browser) (hist : List Call) (le : Option String)
    (i : Nat) (s : String)
    (h1 : (pyIn "导航" s || pyIn "打开" s || pyIn "访问" s) = false)
    (h2 : (pyIn "搜索" s && pyIn "输入" s) = false)
    (h3 : pyIn "点击" s = false)
    (h4 : (pyIn "验证" s || pyIn "检查" s) = false)
    (h5 : pyIn "等待" s = false) :
    exec_step (some br) hist le i s
      = ({ step := i + 1, description := s, success := true, error := none, message := some "步骤执行完成" }, le,
         hist ++ [{ action := "wait", kwargs := { timeout := some 1000 } }]) := by
  unfold exec_step
  rw [h1, h2, h3, h4, h5]
  rfl

/-- Witness for C9 at the keyword-free step text `做点什么`. -/
theorem C9_witness :
    exec_step (some brOk) [] none 0 "做点什么"
      = ({ step := 1, description := "做点什么", success := true, error := none, message := some "步骤执行完成" }, none,
         [] ++ [{ action := "wait", kwargs := { timeout := some 1000 } }]) :=
  C9_default_rule_noop_success brOk [] none 0 "做点什么"
    (by decide) (by decide) (by decide) (by decide) (by decide)

lemma run_all_tests_from_shape (tcs : List TestCase) :
    ∀ adv ts page hist i,
      (run_all_tests_from adv ts page hist i tcs).1.length = tcs.length
      ∧ (run_all_tests_from adv ts page hist i tcs).1.map (fun r => r.id) = tcs.map (fun tc => tc.id) := by
  induction tcs with
  | nil => intro adv ts page hist i; simp [run_all_tests_from]
  | cons tc rest ih =>
    intro adv ts page hist i
    have hid : (run_test_case (adv i) page hist tc (ts i)).1.id = tc.id := by
      unfold run_test_case
      by_cases h : (ask_ai_to_execute (adv i) page hist tc.steps).1.success <;> simp [h]
    have hrec := ih adv ts page (run_test_case (adv i) page hist tc (ts i)).2 (i + 1)
    constructor
    · simpa [run_all_tests_from] using hrec.1
    · simp only [run_all_tests_from, List.map_cons]
      rw [hid]
      rw [hrec.2]

/-- C5: the suite runner produces exactly one `TestCaseResult` per input
case, in input order (the result ids are the input ids, in order), and a
failing case never prevents later cases from running; in particular, the
2-case suite where case 1 fails (keyword without URL) and case 2 passes
(default rule) yields 2 results in input order, failed then passed. -/
theorem C5_suite_order_and_isolation :
    (∀ (adv : Nat → Except String String) (ts : Nat → String) (page : Option Browser) (tcs : List TestCase),
        (run_all_tests adv ts page tcs).1.length = tcs.length
        ∧ (run_all_tests adv ts page tcs).1.map (fun r => r.id) = tcs.map (fun tc => tc.id))
    ∧ ((run_all_tests (fun _ => Except.ok "plan") (fun _ => "t0") (some brOk)
          [{ id := "TC1", steps := ["打开页面"] }, { id := "TC2", steps := ["做点什么"] }]).1.map
            (fun r => (r.id, r.success))
        = [("TC1", false), ("TC2", true)]) := by
  constructor
  · intro adv ts page tcs
    exact run_all_tests_from_shape tcs adv ts page [] 0
  · decide

/-- C6: a raised advisory AI chat-completion exception never escapes:
the case result is a failure with the error message
`AI 调用失败: <detail>` (the source's Chinese rendering of "AI call
failed: <detail>"), the produced `StepResult` sequence is empty, and the
execution phase performs no page call at all (the history it returns is
unchanged; only the post-failure screenshot stage may touch the page). -/
theorem C6_advisory_failure_short_circuit (e : String) (page : Option Browser)
    (hist : List Call) (tc : TestCase) (ts : String) :
    ((run_test_case (Except.error e) page hist tc ts).1.success = false)
    ∧ ((run_test_case (Except.error e) page hist tc ts).1.error = some ("AI 调用失败: " ++ e))
    ∧ ((run_test_case (Except.error e) page hist tc ts).1.steps = [])
    ∧ ((ask_ai_to_execute (Except.error e) page hist tc.steps).2 = hist) := by
  refine ⟨?_, ?_, ?_, rfl⟩ <;> simp [run_test_case, ask_ai_to_execute]

/-- Whether a recorded page call is a screenshot attempt. -/
def isScreenshotCall (c : Call) : Bool := c.action = "screenshot"

lemma execute_countP_ne (page : Option Browser) (hist : List Call) (a : String) (k : Kwargs)
    (h : a ≠ "screenshot") :
    ((execute_playwright_action page hist a k).2).countP isScreenshotCall
      = hist.countP isScreenshotCall := by
  unfold execute_playwright_action
  cases page with
  | none => rfl
  | some br =>
    split_ifs
    all_goals
      first
        | rfl
        | (rw [doCall_snd]; simp [List.countP_append, List.countP_cons, isScreenshotCall])

lemma exec_step_countP (page : Option Browser) (hist : List Call) (le : Option String)
    (i : Nat) (s : String) :
    ((exec_step page hist le i s).2.2).countP isScreenshotCall = hist.countP isScreenshotCall := by
  unfold exec_step
  dsimp only
  repeat' split
  all_goals
    first
      | rfl
      | (apply execute_countP_ne; decide)

lemma run_steps_countP (steps : List String) :
    ∀ page hist le i,
      ((run_steps page hist le i steps).hist).countP isScreenshotCall
        = hist.countP isScreenshotCall := by
  induction steps with
  | nil => intro page hist le i; rfl
  | cons s rest ih =>
    intro page hist le i
    unfold run_steps
    by_cases h : (exec_step page hist le i s).1.success
    · simp only [h, if_true]
      rw [ih page (exec_step page hist le i s).2.2 (exec_step page hist le i s).2.1 (i + 1)]
      exact exec_step_countP page hist le i s
    · simp only [h, if_false, Bool.false_eq_true]
      exact exec_step_countP page hist le i s

lemma ask_ai_countP (advisory : Except String String) (page : Option Browser)
    (hist : List Call) (steps : List String) :
    ((ask_ai_to_execute advisory page hist steps).2).countP isScreenshotCall
      = hist.countP isScreenshotCall := by
  cases advisory with
  | ok r => exact run_steps_countP steps page hist none 0
  | error e => rfl

/-- C7: in every test-case run on a live session, the final outcome
fields (`success`, `steps`) are exactly those of the execution phase —
so a failing screenshot cannot change the case outcome — the number of
screenshot calls attempted is exactly one when the case failed and zero
when it passed, and `TestCaseResult.screenshot` is absent exactly when
the case passed. -/
theorem C7_screenshot_iff_failed (advisory : Except String String) (br : Browser)
    (hist : List Call) (tc : TestCase) (ts : String) :
    ((run_test_case advisory (some br) hist tc ts).1.success
        = (ask_ai_to_execute advisory (some br) hist tc.steps).1.success)
    ∧ ((run_test_case advisory (some br) hist tc ts).1.steps
        = (ask_ai_to_execute advisory (some br) hist tc.steps).1.steps)
    ∧ (((run_test_case advisory (some br) hist tc ts).2).countP isScreenshotCall
        = hist.countP isScreenshotCall
          + (if (ask_ai_to_execute advisory (some br) hist tc.steps).1.success then 0 else 1))
    ∧ ((run_test_case advisory (some br) hist tc ts).1.screenshot.isNone
        = (ask_ai_to_execute advisory (some br) hist tc.steps).1.success) := by
  have hsnap : ∀ h2 k, ((execute_playwright_action (some br) h2 "screenshot" k).2).countP isScreenshotCall
      = h2.countP isScreenshotCall + 1 := by
    intro h2 k
    show ((doCall br h2 _ _).2).countP isScreenshotCall = h2.countP isScreenshotCall + 1
    rw [doCall_snd]
    simp [List.countP_append, List.countP_cons, isScreenshotCall]
  by_cases h : (ask_ai_to_execute advisory (some br) hist tc.steps).1.success
  · refine ⟨?_, ?_, ?_, ?_⟩
    · unfold run_test_case; simp [h]
    · unfold run_test_case; simp [h]
    · unfold run_test_case
      simp only [h, if_true]
      rw [ask_ai_countP]
      simp
    · unfold run_test_case; simp [h]
  · have h' : (ask_ai_to_execute advisory (some br) hist tc.steps).1.success = false := by
      simpa using h
    refine ⟨?_, ?_, ?_, ?_⟩
    · unfold run_test_case; simp [h']
    · unfold run_test_case; simp [h']
    · unfold run_test_case
      simp only [h', Bool.false_eq_true, if_false]
      rw [hsnap, ask_ai_countP]
    · unfold run_test_case; simp [h']

/-- A browser oracle whose screenshot method raises while every other
page method succeeds; exhibits that the screenshot's `ActionResult` is
never inspected. -/
def brShotFails : Browser :=
  fun _ c => if isScreenshotCall c then Except.error "截图写入失败" else Except.ok ""

/-- C10: on every failed test-case run on a live session,
`TestCaseResult.screenshot` is set to the relative path
`screenshots/<case-id>_<timestamp>.png` unconditionally — the
`ActionResult` returned by the screenshot action is discarded, so the
path is attached even when the browser reported a screenshot failure
(the universally quantified oracle `br` includes such browsers). -/
theorem C10_screenshot_path_regardless (advisory : Except String String) (br : Browser)
    (hist : List Call) (tc : TestCase) (ts : String)
    (h : (run_test_case advisory (some br) hist tc ts).1.success = false) :
    (run_test_case advisory (some br) hist tc ts).1.screenshot
      = some ("screenshots/" ++ (tc.id ++ "_" ++ ts ++ ".png")) := by
  by_cases her : (ask_ai_to_execute advisory (some br) hist tc.steps).1.success
  · exfalso
    unfold run_test_case at h
    simp [her] at h
  · have h' : (ask_ai_to_execute advisory (some br) hist tc.steps).1.success = false := by
      simpa using her
    unfold run_test_case
    simp [h']

/-- Witness for C10: a failing case run against a browser whose
screenshot action itself reports an exception still gets the screenshot
path attached. -/
theorem C10_witness :
    (run_test_case (Except.ok "plan") (some brShotFails) [] { id := "TC1", steps := ["打开页面"] } "20240101").1.screenshot
      = some ("screenshots/" ++ (({ id := "TC1", steps := ["打开页面"] } : TestCase).id ++ "_" ++ "20240101" ++ ".png")) :=
  C10_screenshot_path_regardless (Except.ok "plan") brShotFails [] { id := "TC1", steps := ["打开页面"] } "20240101" (by decide)

lemma afterScheme_spec (l : List Char) (p : List Char × List Char)
    (h : afterScheme l = some p) :
    (p.1 = "http://".data ∨ p.1 = "https://".data) ∧ l = p.1 ++ p.2 := by
  unfold afterScheme at h
  split at h
  · cases h
    exact ⟨Or.inr rfl, rfl⟩
  · cases h
    exact ⟨Or.inl rfl, rfl⟩
  · exact absurd h (by simp)

/-- The URL pattern matches at position `j` of the character list: the
scheme parses there and is followed by at least one non-stop character. -/
def urlMatchAt (l : List Char) (j : Nat) : Prop :=
  ∃ p : List Char × List Char, afterScheme (l.drop j) = some p
    ∧ p.2.takeWhile (fun d => !urlStop d) ≠ []

lemma findUrlFrom_spec : ∀ (l u : List Char), findUrlFrom l = some u →
    ∃ j sch r, afterScheme (l.drop j) = some (sch, r)
      ∧ u = sch ++ r.takeWhile (fun d => !urlStop d)
      ∧ r.takeWhile (fun d => !urlStop d) ≠ []
      ∧ ∀ j2, j2 < j → ¬ urlMatchAt l j2 := by
  intro l
  induction l with
  | nil => intro u h; simp [findUrlFrom] at h
  | cons c cs ih =>
    intro u h
    unfold findUrlFrom at h
    cases hsch : afterScheme (c :: cs) with
    | some p =>
      rw [hsch] at h
      simp only at h
      by_cases hrun : (p.2.takeWhile (fun d => !urlStop d)).isEmpty
      · rw [if_pos hrun] at h
        obtain ⟨j, sch, r, h1, h2, h3, h4⟩ := ih u h
        refine ⟨j + 1, sch, r, ?_, h2, h3, ?_⟩
        · simpa [List.drop_succ_cons] using h1
        · intro j2 hj2
          cases j2 with
          | zero =>
            rintro ⟨p', hp', hne⟩
            rw [List.drop_zero] at hp'
            rw [hsch] at hp'
            cases hp'
            exact hne (List.isEmpty_iff.mp hrun)
          | succ k =>
            have hk : k < j := by omega
            have := h4 k hk
            intro hm
            apply this
            obtain ⟨p', hp', hne⟩ := hm
            exact ⟨p', by simpa [List.drop_succ_cons] using hp', hne⟩
      · rw [if_neg hrun] at h
        cases h
        refine ⟨0, p.1, p.2, ?_, rfl, ?_, ?_⟩
        · rw [List.drop_zero, hsch]
        · intro hempty
          exact hrun (by simp [hempty])
        · intro j2 hj2; omega
    | none =>
      rw [hsch] at h
      simp only at h
      obtain ⟨j, sch, r, h1, h2, h3, h4⟩ := ih u h
      refine ⟨j + 1, sch, r, ?_, h2, h3, ?_⟩
      · simpa [List.drop_succ_cons] using h1
      · intro j2 hj2
        cases j2 with
        | zero =>
          rintro ⟨p', hp', hne⟩
          rw [List.drop_zero] at hp'
          rw [hsch] at hp'
          exact absurd hp' (by simp)
        | succ k =>
          have hk : k < j := by omega
          have := h4 k hk
          intro hm
          apply this
          obtain ⟨p', hp', hne⟩ := hm
          exact ⟨p', by simpa [List.drop_succ_cons] using hp', hne⟩

/-- Counterexample to C8: the step text `访问 https://a.com,b` contains
the visit keyword and a URL, but the produced navigate action carries
`https://a.com,b` — the code's URL character class does not stop at the
ASCII comma — whereas the claimed "not commas" extraction
(`specUrlFirst`, modelled from the spec's words) stops before it and
yields `https://a.com`. -/
theorem C8_counterexample :
    ((exec_step (some brOk) [] none 0 "访问 https://a.com,b").2.2
        = [{ action := "goto", kwargs := { url := some "https://a.com,b" } }])
    ∧ specUrlFirst "访问 https://a.com,b" = some "https://a.com"
    ∧ ("https://a.com,b" : String) ≠ "https://a.com" := by
  refine ⟨by decide, by decide, by decide⟩

/-- C8 (amended): for every step text containing a navigate/open/visit
keyword for which the URL scan succeeds, the produced action is
`navigate{url}` (one `goto` page call, whose outcome becomes the step
outcome), and the extracted url is the first substring consisting of the
scheme `http` or `https` followed by a maximal nonempty run of characters
outside the stop set `[whitespace, ASCII right parenthesis, fullwidth
comma 「，」, ideographic full stop 「。」]` — ASCII commas and all other
bracket characters are allowed inside the url. -/
theorem C8_navigate_url_extraction (br : Browser) (hist : List Call) (le : Option String)
    (i : Nat) (s : String) (u : String)
    (hk : (pyIn "导航" s || pyIn "打开" s || pyIn "访问" s) = true)
    (hu : findUrl s = some u) :
    ((exec_step (some br) hist le i s).2.2
        = hist ++ [{ action := "goto", kwargs := { url := some u } }])
    ∧ ((exec_step (some br) hist le i s).1.success
        = (execute_playwright_action (some br) hist "goto" { url := some u }).1.success)
    ∧ (∃ j sch r, afterScheme (s.data.drop j) = some (sch, r)
        ∧ (sch = "http://".data ∨ sch = "https://".data)
        ∧ s.data.drop j = sch ++ r
        ∧ u.data = sch ++ r.takeWhile (fun d => !urlStop d)
        ∧ r.takeWhile (fun d => !urlStop d) ≠ []
        ∧ ∀ j2, j2 < j → ¬ urlMatchAt s.data j2) := by
  obtain ⟨lu, hlu, hmk⟩ := Option.map_eq_some'.mp hu
  refine ⟨?_, ?_, ?_⟩
  · unfold exec_step
    rw [hk, hu]
    rfl
  · unfold exec_step
    rw [hk, hu]
    rfl
  · obtain ⟨j, sch, r, h1, h2, h3, h4⟩ := findUrlFrom_spec s.data lu hlu
    have hsp := afterScheme_spec (s.data.drop j) (sch, r) h1
    refine ⟨j, sch, r, h1, hsp.1, hsp.2, ?_, h3, h4⟩
    rw [← hmk]
    exact h2

/-- Witness for C8 at the spec's Scenario A, step text
`导航到 https://example.com`. -/
theorem C8_witness :
    ((exec_step (some brOk) [] none 0 "导航到 https://example.com").2.2
        = [] ++ [{ action := "goto", kwargs := { url := some "https://example.com" } }])
    ∧ ((exec_step (some brOk) [] none 0 "导航到 https://example.com").1.success
        = (execute_playwright_action (some brOk) [] "goto" { url := some "https://example.com" }).1.success)
    ∧ (∃ j sch r, afterScheme (("导航到 https://example.com" : String).data.drop j) = some (sch, r)
        ∧ (sch = "http://".data ∨ sch = "https://".data)
        ∧ ("导航到 https://example.com" : String).data.drop j = sch ++ r
        ∧ ("https://example.com" : String).data = sch ++ r.takeWhile (fun d => !urlStop d)
        ∧ r.takeWhile (fun d => !urlStop d) ≠ []
        ∧ ∀ j2, j2 < j → ¬ urlMatchAt ("导航到 https://example.com" : String).data j2) :=
  C8_navigate_url_extraction brOk [] none 0 "导航到 https://example.com" "https://example.com"
    (by decide) (by decide)
